import Mathlib

/-!
Verification of the news/sentiment dashboard's filter-and-aggregate core.

The embedding models the shared logic of the four near-duplicate
implementations (`src/flask/app.py`, `src/flask2/app1.py`, `src/backend.py`,
`src/backnew.py`): an immutable in-memory table of news records, a filter
pipeline over it (year, stock symbol, sentiment-score range, title keyword,
record id), a date-descending sort with a 200-row display cap, an annual
mean-sentiment trend, and a yearly sentiment-label summary.

Modelling conventions:
* pandas floats are rationals; a missing value (NaN/NaT/None in a cell) is
  `Option.none`.  NaN comparisons are false, as in pandas.
* Column presence (`"X" in df.columns`) is a Boolean flag on the dataset;
  when a column is absent the corresponding record fields are ignored.
* Python `str.upper` / `str.strip` act on the basic latin range, matching
  `Char.toUpper` / `Char.isWhitespace`.
-/

namespace NewsPipeline

/-- One row of the loaded table.  `newsId` is kept in string form (the apps
compare ids via string coercion).  `date` is the parsed `Date` value as an
abstract ordered timestamp, `none` for NaT; `year` is the derived `Year`
column, `none` for missing.  `score` is `sentiment_score_signed`, `none`
for NaN. -/
structure Record where
  newsId : String
  date : Option Int
  year : Option Int
  stockSymbol : Option String
  articleTitle : Option String
  sentimentLabel : Option String
  score : Option ℚ
deriving DecidableEq

/-- The in-memory table plus which columns exist.  `hasDate` means the
`Date` column is present (the loaders parse it to datetime whenever it is
present, so presence implies datetime dtype). -/
structure Dataset where
  rows : List Record
  hasDate : Bool
  hasYear : Bool
  hasSymbol : Bool
  hasTitle : Bool
  hasLabel : Bool
  hasScore : Bool
deriving DecidableEq

/-! ### String primitives (Python `upper`, `strip`, case-insensitive contains) -/

/-- Python `str.upper`, character by character (basic latin, like
`Char.toUpper`). -/
def upL (l : List Char) : List Char := l.map Char.toUpper

/-- Python `str.upper` on a string. -/
def upStr (s : String) : String := ⟨upL s.data⟩

/-- Whitespace predicate used by Python `str.strip`. -/
def wsP (c : Char) : Bool := c.isWhitespace

/-- Python `str.strip`: drop whitespace from both ends. -/
def trimL (l : List Char) : List Char := List.rdropWhile wsP (l.dropWhile wsP)

/-- Python `str.strip` on a string. -/
def trimStr (s : String) : String := ⟨trimL s.data⟩

/-- The symbol normalization used by `app1.py`: `value.strip().upper()`. -/
def normSym (s : String) : String := upStr (trimStr s)

/-- Does `hay` start with `needle`? -/
def startsWithL : List Char → List Char → Bool
  | _, [] => true
  | [], _ :: _ => false
  | c :: cs, d :: ds => c == d && startsWithL cs ds

/-- Substring containment on character lists. -/
def containsL : List Char → List Char → Bool
  | [], needle => startsWithL [] needle
  | c :: rest, needle => startsWithL (c :: rest) needle || containsL rest needle

/-- Case-insensitive literal substring containment — the spec's wording of
the keyword predicate ("contains the keyword as a case-insensitive
substring").  The code's regex search (`searchCI`) coincides with this
exactly on keywords free of regex metacharacters. -/
def substrCI (t kw : String) : Bool := containsL (upL t.data) (upL kw.data)

/-- Is `c` one of Python `re`'s special characters
(`. ^ $ * + ? { } [ ] \ | ( )`)? -/
def isMetaChar (c : Char) : Bool :=
  c == '.' || c == '^' || c == '$' || c == '*' || c == '+' || c == '?' ||
  c == '\x7b' || c == '\x7d' || c == '[' || c == ']' || c == '\\' ||
  c == '|' || c == '(' || c == ')'

/-- Is the keyword a literal pattern, i.e. free of regex metacharacters?
On such keywords regex search is plain substring search. -/
def isLiteralPat (s : String) : Bool := s.data.all (fun c => !isMetaChar c)

/-- One token of the modelled pattern fragment: a plain character or the
`.` wildcard. -/
inductive RTok where
  | lit (c : Char)
  | dot
deriving DecidableEq

/-- Parse a pattern made of plain characters and `.` wildcards; `none`
for patterns using any other metacharacter (full regex syntax — outside
the modelled fragment). -/
def parsePat : List Char → Option (List RTok)
  | [] => some []
  | c :: cs =>
    if c == '.' then (parsePat cs).map (fun p => RTok.dot :: p)
    else if isMetaChar c then none
    else (parsePat cs).map (fun p => RTok.lit c :: p)

/-- Match one token against one title character, case-insensitively:
a literal compares case-folded, `.` matches anything but a newline (the
Python default). -/
def tokMatch (tk : RTok) (c : Char) : Bool :=
  match tk with
  | RTok.lit p => c.toUpper == p.toUpper
  | RTok.dot => c != '\n'

/-- Does the pattern match at the start of the text?  Every token consumes
exactly one character, so matching is deterministic. -/
def matchHere : List RTok → List Char → Bool
  | [], _ => true
  | _ :: _, [] => false
  | tk :: tks, c :: cs => tokMatch tk c && matchHere tks cs

/-- Does the pattern match anywhere in the text (`re.search`)? -/
def searchFrom : List RTok → List Char → Bool
  | tks, [] => matchHere tks []
  | tks, c :: cs => matchHere tks (c :: cs) || searchFrom tks cs

/-- The search behind `Series.str.contains(keyword, case=False)`: pandas
defaults to `regex=True`, so the keyword is a pattern for
`re.search(keyword, title, re.IGNORECASE)`.  Modelled on the fragment of
patterns built from plain characters and the `.` wildcard; patterns using
other metacharacters (full regex features, or `re.error` on malformed
ones) are outside the model and mapped to `false`. -/
def searchCI (t kw : String) : Bool :=
  match parsePat kw.data with
  | some tks => searchFrom tks t.data
  | none => false

/-- The keyword predicate on the nullable title column:
`str.contains(keyword, case=False, na=False)` — a regex search with a
null title never matching. -/
def titleMatch (t : Option String) (kw : String) : Bool :=
  match t with
  | some s => searchCI s kw
  | none => false

/-! ### Char lemmas: `toUpper` is idempotent and preserves whitespace-ness -/

theorem char_toNat_ofNat_valid {n : Nat} (h : n.isValidChar) :
    (Char.ofNat n).toNat = n := by
  rw [Char.ofNat, dif_pos h]
  simp [Char.ofNatAux, Char.toNat, UInt32.toNat]

theorem char_toUpper_of_not_lower {c : Char}
    (h : ¬(97 ≤ c.toNat ∧ c.toNat ≤ 122)) : c.toUpper = c := by
  rw [Char.toUpper, if_neg h]

theorem char_toNat_toUpper_of_lower {c : Char}
    (h : 97 ≤ c.toNat ∧ c.toNat ≤ 122) : c.toUpper.toNat = c.toNat - 32 := by
  rw [Char.toUpper, if_pos h]
  exact char_toNat_ofNat_valid (Or.inl (by omega))

theorem char_toUpper_toUpper (c : Char) : c.toUpper.toUpper = c.toUpper := by
  by_cases h : 97 ≤ c.toNat ∧ c.toNat ≤ 122
  · have hn : c.toUpper.toNat = c.toNat - 32 := char_toNat_toUpper_of_lower h
    exact char_toUpper_of_not_lower (by omega)
  · rw [char_toUpper_of_not_lower h, char_toUpper_of_not_lower h]

theorem char_toNat_inj {c d : Char} (h : c.toNat = d.toNat) : c = d :=
  Char.ext (UInt32.toNat.inj h)

theorem char_isWhitespace_iff_toNat (c : Char) :
    c.isWhitespace = true ↔
      (c.toNat = 32 ∨ c.toNat = 9 ∨ c.toNat = 13 ∨ c.toNat = 10) := by
  constructor
  · intro h
    simp only [Char.isWhitespace, Bool.or_eq_true, decide_eq_true_eq] at h
    rcases h with ((h | h) | h) | h <;> subst h <;> decide
  · intro h
    have hc : c = ' ' ∨ c = '\t' ∨ c = '\x0d' ∨ c = '\n' := by
      rcases h with h | h | h | h
      · exact Or.inl (char_toNat_inj (by rw [h]; rfl))
      · exact Or.inr (Or.inl (char_toNat_inj (by rw [h]; rfl)))
      · exact Or.inr (Or.inr (Or.inl (char_toNat_inj (by rw [h]; rfl))))
      · exact Or.inr (Or.inr (Or.inr (char_toNat_inj (by rw [h]; rfl))))
    rcases hc with h | h | h | h <;> subst h <;> decide

theorem char_isWhitespace_toUpper (c : Char) :
    c.toUpper.isWhitespace = c.isWhitespace := by
  by_cases h : 97 ≤ c.toNat ∧ c.toNat ≤ 122
  · have hn : c.toUpper.toNat = c.toNat - 32 := char_toNat_toUpper_of_lower h
    have h1 : c.toUpper.isWhitespace = false := by
      rw [Bool.eq_false_iff]
      intro hw
      rcases (char_isWhitespace_iff_toNat _).1 hw with h2 | h2 | h2 | h2 <;>
        omega
    have h2 : c.isWhitespace = false := by
      rw [Bool.eq_false_iff]
      intro hw
      rcases (char_isWhitespace_iff_toNat _).1 hw with h2 | h2 | h2 | h2 <;>
        omega
    rw [h1, h2]
  · rw [char_toUpper_of_not_lower h]

theorem upL_upL (l : List Char) : upL (upL l) = upL l := by
  simp only [upL, List.map_map]
  exact List.map_congr_left (fun c _ => char_toUpper_toUpper c)

theorem upStr_upStr (s : String) : upStr (upStr s) = upStr s := by
  simp [upStr, upL_upL]

theorem wsP_comp_toUpper : (wsP ∘ Char.toUpper) = wsP :=
  funext fun c => by simp [wsP, Function.comp, char_isWhitespace_toUpper]

theorem dropWhile_upL (l : List Char) :
    List.dropWhile wsP (upL l) = upL (List.dropWhile wsP l) := by
  simp only [upL, List.dropWhile_map, wsP_comp_toUpper]

theorem rdropWhile_upL (l : List Char) :
    List.rdropWhile wsP (upL l) = upL (List.rdropWhile wsP l) := by
  simp only [List.rdropWhile, upL, ← List.map_reverse, List.dropWhile_map,
    wsP_comp_toUpper]

theorem trimL_upL (l : List Char) : trimL (upL l) = upL (trimL l) := by
  simp only [trimL, dropWhile_upL, rdropWhile_upL]

theorem dropWhile_head_false {p : Char → Bool} :
    ∀ {l a m}, List.dropWhile p l = a :: m → p a = false := by
  intro l
  induction l with
  | nil => intro a m h; simp at h
  | cons b l1 ih =>
    intro a m h
    rw [List.dropWhile_cons] at h
    by_cases hb : p b = true
    · rw [if_pos hb] at h
      exact ih h
    · rw [if_neg hb] at h
      cases h
      exact Bool.eq_false_iff.mpr hb

theorem dropWhile_rdropWhile_dropWhile (p : Char → Bool) (l : List Char) :
    List.dropWhile p (List.rdropWhile p (List.dropWhile p l)) =
      List.rdropWhile p (List.dropWhile p l) := by
  cases hA : List.dropWhile p l with
  | nil => simp [List.rdropWhile_nil]
  | cons a A1 =>
    have ha : p a = false := dropWhile_head_false hA
    rw [List.rdropWhile, List.reverse_cons, List.dropWhile_append]
    by_cases he : (List.dropWhile p A1.reverse).isEmpty = true
    · rw [if_pos he]
      simp [List.dropWhile_cons, ha]
    · rw [if_neg he]
      rw [List.reverse_append]
      simp [List.dropWhile_cons, ha]

theorem trimL_trimL (l : List Char) : trimL (trimL l) = trimL l := by
  show List.rdropWhile wsP
      (List.dropWhile wsP (List.rdropWhile wsP (List.dropWhile wsP l))) = _
  rw [dropWhile_rdropWhile_dropWhile, List.rdropWhile_idempotent]
  rfl

theorem normSym_normSym (s : String) : normSym (normSym s) = normSym s := by
  simp only [normSym, upStr, trimStr, trimL_upL, trimL_trimL, upL_upL]

theorem upStr_eq_empty_iff (s : String) : upStr s = "" ↔ s = "" := by
  rw [String.ext_iff, String.ext_iff]
  show upL s.data = [] ↔ s.data = []
  simp [upL]

/-! ### Numeric primitives: NaN-aware comparison, min/max, banker's rounding -/

/-- Comparison of possibly-missing floats: any comparison with NaN is
false, as in pandas. -/
def pfLe : Option ℚ → Option ℚ → Bool
  | some a, some b => decide (a ≤ b)
  | _, _ => false

/-- Minimum of two rationals, by the order. -/
def qmin (a b : ℚ) : ℚ := if a ≤ b then a else b

/-- Maximum of two rationals, by the order. -/
def qmax (a b : ℚ) : ℚ := if a ≤ b then b else a

/-- Minimum of a list of rationals, `none` on the empty list. -/
def listMinQ : List ℚ → Option ℚ
  | [] => none
  | x :: xs =>
    match listMinQ xs with
    | none => some x
    | some m => some (qmin x m)

/-- Maximum of a list of rationals, `none` on the empty list. -/
def listMaxQ : List ℚ → Option ℚ
  | [] => none
  | x :: xs =>
    match listMaxQ xs with
    | none => some x
    | some m => some (qmax x m)

/-- `Series.min()`: skip nulls; NaN (`none`) when no value remains. -/
def seriesMin (l : List (Option ℚ)) : Option ℚ := listMinQ (l.filterMap id)

/-- `Series.max()`: skip nulls; NaN (`none`) when no value remains. -/
def seriesMax (l : List (Option ℚ)) : Option ℚ := listMaxQ (l.filterMap id)

/-- The module-level `MIN_SCORE`: `None` if the score column is absent,
otherwise the observed global minimum. -/
def minScoreGlobal (ds : Dataset) : Option ℚ :=
  if ds.hasScore then seriesMin (ds.rows.map (·.score)) else none

/-- The module-level `MAX_SCORE`. -/
def maxScoreGlobal (ds : Dataset) : Option ℚ :=
  if ds.hasScore then seriesMax (ds.rows.map (·.score)) else none

/-- Floor of a rational, computed by floored integer division. -/
def ratFloor (q : ℚ) : ℤ := Int.fdiv q.num q.den

/-- Round to the nearest integer, ties to even — the rounding used by
Python's `round` and pandas `.round`. -/
def rne (q : ℚ) : ℤ :=
  let f := ratFloor q
  if q - f < 1 / 2 then f
  else if 1 / 2 < q - f then f + 1
  else if 2 ∣ f then f else f + 1

/-- Round to `d` decimal places, ties to even. -/
def roundTo (d : Nat) (q : ℚ) : ℚ := (rne (q * (10 ^ d : ℕ)) : ℚ) / (10 ^ d : ℕ)

/-- Python `int(...)` applied to a request string: optional surrounding
whitespace, an optional sign, then decimal digits; `none` when the string
does not parse.  (Python's underscore digit grouping is not modelled.) -/
def digitsToNat (l : List Char) : Nat :=
  l.foldl (fun acc c => 10 * acc + (c.toNat - 48)) 0

/-- Are there digits, and nothing but digits? -/
def allDigits (l : List Char) : Bool := !l.isEmpty && l.all Char.isDigit

/-- Parse an integer the way `int(selected_year)` does, `none` on failure. -/
def parseIntOpt (s : String) : Option Int :=
  match trimL s.data with
  | '-' :: rest =>
    if allDigits rest then some (-(digitsToNat rest : Int)) else none
  | '+' :: rest =>
    if allDigits rest then some (digitsToNat rest : Int) else none
  | l => if allDigits l then some (digitsToNat l : Int) else none

/-! ### Sorting by date, newest first (`sort_values("Date", ascending=False)`,
NaT placed last) -/

/-- Order on nullable timestamps with NaT (`none`) at the bottom. -/
def dOrdLeB : Option Int → Option Int → Bool
  | none, _ => true
  | some _, none => false
  | some x, some y => decide (x ≤ y)

/-- `a` may be placed before `b` in the date-descending display order:
`b`'s date is at most `a`'s, with NaT counting as smallest (hence last). -/
def dateDescRel (a b : Record) : Prop := dOrdLeB b.date a.date = true

instance : DecidableRel dateDescRel := fun a b =>
  inferInstanceAs (Decidable (dOrdLeB b.date a.date = true))

instance : IsTotal Record dateDescRel where
  total a b := by
    unfold dateDescRel
    cases ha : a.date <;> cases hb : b.date <;> simp [dOrdLeB] <;> omega

instance : IsTrans Record dateDescRel where
  trans a b c hab hbc := by
    unfold dateDescRel at *
    cases ha : a.date <;> cases hb : b.date <;> cases hc : c.date <;>
      rw [ha, hb] at hab <;> rw [hb, hc] at hbc <;> simp [dOrdLeB] at * <;>
      omega

/-- The display sort: by parsed date, newest first, NaT rows last.  (The
pandas quicksort's order among equal dates is unspecified; the model fixes
the stable order.) -/
def sortByDateDesc (l : List Record) : List Record := l.insertionSort dateDescRel

/-! ### Aggregators (`compute_annual_trend`, `compute_yearly_summary` of
`src/flask/app.py`; the `app1.py`/dashboard variants compute the same
values) -/

/-- `value_counts().sort_values(ascending=False)` on the label column:
null labels are dropped, distinct labels are counted, and the table is
ordered by count descending.  pandas leaves the order among equal counts
unspecified; the model fixes the stable order on first occurrence. -/
def countsOf (ls : List String) : List (String × Nat) :=
  (ls.dedup.map (fun l => (l, ls.count l))).insertionSort
    (fun a b => b.2 ≤ a.2)

/-- The yearly sentiment summary block.  `summaryRows` is
(label, count, percentage rounded to one decimal); the code formats the
percentage as a string, modelled by the rounded rational. -/
structure Summary where
  totalArticles : Nat
  dominantLabel : Option String
  dominantPct : Option ℚ
  summaryRows : List (String × Nat × ℚ)
deriving DecidableEq

/-- The explicit empty-summary result. -/
def emptySummary : Summary :=
  { totalArticles := 0, dominantLabel := none, dominantPct := none
    summaryRows := [] }

/-- `compute_yearly_summary(df, selected_year)` from `src/flask/app.py`:
restrict the full table by the year predicate only (a parse failure keeps
the whole table), then count sentiment labels.  The code indexes
`counts.index[0]` only behind the `total == 0` guard; the model uses
`head?` for that access.  (`app1.py`'s variant guards with
`selected_year not in ["", "all", None]` and plain `value_counts()`, which
yield the same summary.) -/
def computeYearlySummary (ds : Dataset) (selectedYear : String) : Summary :=
  let dfYear : List Record :=
    if ds.hasYear && selectedYear != "all" then
      match parseIntOpt selectedYear with
      | some y => ds.rows.filter (fun r => r.year == some y)
      | none => ds.rows
    else ds.rows
  if !ds.hasLabel || dfYear.isEmpty then emptySummary
  else
    let counts := countsOf (dfYear.filterMap (·.sentimentLabel))
    let total := (counts.map (·.2)).sum
    if total == 0 then emptySummary
    else
      { totalArticles := total
        dominantLabel := counts.head?.map (·.1)
        dominantPct :=
          counts.head?.map (fun p => roundTo 1 ((p.2 : ℚ) / (total : ℚ) * 100))
        summaryRows :=
          counts.map
            (fun p => (p.1, p.2, roundTo 1 ((p.2 : ℚ) / (total : ℚ) * 100))) }

/-- The distinct non-null years of the table, ascending — the group keys
of `df.groupby("Year")`. -/
def distinctYears (rows : List Record) : List Int :=
  ((rows.filterMap (·.year)).dedup).insertionSort (fun a b => a ≤ b)

/-- The non-null scores of the rows of year `y`. -/
def yearScores (rows : List Record) (y : Int) : List ℚ :=
  rows.filterMap (fun r => if r.year == some y then r.score else none)

/-- The null-skipping mean score of year `y`: NaN (`none`) when the year
has no non-null score, as `groupby(...).mean()` produces. -/
def yearMean (rows : List Record) (y : Int) : Option ℚ :=
  if (yearScores rows y).isEmpty then none
  else some ((yearScores rows y).sum / ((yearScores rows y).length : ℚ))

/-- `compute_annual_trend(df)` from `src/flask/app.py`: per-year mean of
`sentiment_score_signed` over the whole table, keys ascending, means
rounded to 4 decimals (`round(4)` of NaN is NaN).  `app1.py`'s variant
omits the redundant `dropna`/`astype(int)` and computes the same lists. -/
def computeAnnualTrend (ds : Dataset) : List Int × List (Option ℚ) :=
  if !ds.hasYear || !ds.hasScore then ([], [])
  else
    let ys := distinctYears ds.rows
    (ys, ys.map (fun y => (yearMean ds.rows y).map (roundTo 4)))

/-! ### The filter pipelines -/

/-- The year step of `app.py`'s chain: `if selected_year != "all" and
"Year" in filtered.columns: try: ... except: pass` — skip on the `"all"`
sentinel, a missing `Year` column, or a parse failure. -/
def yearStep (hasYear : Bool) (yearS : String) (l : List Record) :
    List Record :=
  if yearS != "all" && hasYear then
    match parseIntOpt yearS with
    | some y => l.filter (fun r => r.year == some y)
    | none => l
  else l

/-- The year step of `app1.py`'s chain: the sentinel check is
`not in ["", "all", None]`, and the column access sits inside the `try`,
so a missing `Year` column is caught and skipped too. -/
def yearStep2 (hasYear : Bool) (yearS : String) (l : List Record) :
    List Record :=
  if yearS != "" && yearS != "all" then
    if hasYear then
      match parseIntOpt yearS with
      | some y => l.filter (fun r => r.year == some y)
      | none => l
    else l
  else l

/-- The filter chain of `index` in `src/flask/app.py` (lines 118-141):
year, symbol, sentiment range, keyword, applied in sequence to a fresh
view of the full table.  `yearS`/`symbolS` arrive with `""` already
normalized to `"all"`, `keywordS` already stripped, and `sMin`/`sMax` are
the request floats after defaulting (see `indexFlask`). -/
def filtChain1 (ds : Dataset) (yearS symbolS keywordS : String)
    (sMin sMax : Option ℚ) : List Record :=
  let f0 := ds.rows
  let f1 := yearStep ds.hasYear yearS f0
  let f2 :=
    if symbolS != "all" && ds.hasSymbol then
      f1.filter (fun r => r.stockSymbol == some symbolS)
    else f1
  let f3 :=
    if ds.hasScore then
      f2.filter (fun r => pfLe sMin r.score && pfLe r.score sMax)
    else f2
  if keywordS != "" && ds.hasTitle then
    f3.filter (fun r => titleMatch r.articleTitle keywordS)
  else f3

/-- The filter chain of `index` in `src/flask2/app1.py` (lines 126-158):
year (column access inside `try`, so a missing `Year` column is caught and
skipped), normalized symbol, sentiment range, keyword, and the `news_id`
equality-as-strings predicate.  The symbol and keyword steps read their
columns unconditionally (`KeyError` on a table without them); the model
covers tables carrying those columns. -/
def filtChain2 (ds : Dataset) (yearS symbolS keywordS newsIdS : String)
    (sMin sMax : Option ℚ) : List Record :=
  let f0 := ds.rows
  let f1 := yearStep2 ds.hasYear yearS f0
  let f2 :=
    if symbolS != "" && symbolS != "all" then
      f1.filter (fun r => r.stockSymbol == some (normSym symbolS))
    else f1
  let f3 :=
    if ds.hasScore then
      f2.filter (fun r => pfLe sMin r.score && pfLe r.score sMax)
    else f2
  let f4 :=
    if keywordS != "" then
      f3.filter (fun r => titleMatch r.articleTitle keywordS)
    else f3
  if newsIdS != "" then f4.filter (fun r => r.newsId == newsIdS) else f4

/-- One request's filter parameters.  `sentMin`/`sentMax` are the
`sent_min`/`sent_max` parameters after `float(...)`: `none` when the
parameter is absent or not a float, in which case the handler falls back
to the global min/max.  (The handler parses both inside one `try`, so one
malformed value also resets the other; no modelled behavior depends on
that coupling.) -/
structure RequestQ where
  year : String := "all"
  symbol : String := "all"
  keyword : String := ""
  newsId : String := ""
  sentMin : Option ℚ := none
  sentMax : Option ℚ := none
deriving DecidableEq

/-- What the handler passes to the template, minus pure presentation
echoes: untruncated row count, the 200-row display table (column
projection not modelled), the optional detail record, the trend series,
and the yearly summary. -/
structure Response where
  rowCount : Nat
  tableRows : List Record
  selectedRow : Option Record
  trendYears : List Int
  trendScores : List (Option ℚ)
  yearlySummary : Summary
deriving DecidableEq

/-- Effective lower bound: the request value, else the global minimum. -/
def effSentMin (ds : Dataset) (req : RequestQ) : Option ℚ :=
  match req.sentMin with
  | some q => some q
  | none => minScoreGlobal ds

/-- Effective upper bound: the request value, else the global maximum. -/
def effSentMax (ds : Dataset) (req : RequestQ) : Option ℚ :=
  match req.sentMax with
  | some q => some q
  | none => maxScoreGlobal ds

/-- The `index` route of `src/flask/app.py`: normalize blank year/symbol
to `"all"`, strip keyword and news id, run the filter chain, sort by date
descending when the parsed date column exists, cap the display table at
200 rows, look up the detail record on the filtered view, and attach the
(filter-independent) trend and yearly summary. -/
def indexFlask (ds : Dataset) (req : RequestQ) : Response :=
  let selYear := if req.year == "" then "all" else req.year
  let selSymbol := if req.symbol == "" then "all" else req.symbol
  let kw := trimStr req.keyword
  let nid := trimStr req.newsId
  let filtered :=
    filtChain1 ds selYear selSymbol kw (effSentMin ds req) (effSentMax ds req)
  let sorted := if ds.hasDate then sortByDateDesc filtered else filtered
  { rowCount := sorted.length
    tableRows := sorted.take 200
    selectedRow :=
      if nid != "" && !sorted.isEmpty then
        (sorted.filter (fun r => r.newsId == nid)).head?
      else none
    trendYears := (computeAnnualTrend ds).1
    trendScores := (computeAnnualTrend ds).2
    yearlySummary := computeYearlySummary ds selYear }

/-- The `index` route of `src/flask2/app1.py`: same shape, but the year
`""` sentinel is handled inside the chain, the symbol is normalized, the
`news_id` predicate is part of the chain, and the detail record is the
first row of the (already id-filtered) view. -/
def indexFlask2 (ds : Dataset) (req : RequestQ) : Response :=
  let kw := trimStr req.keyword
  let nid := trimStr req.newsId
  let filtered :=
    filtChain2 ds req.year req.symbol kw nid
      (effSentMin ds req) (effSentMax ds req)
  let sorted := if ds.hasDate then sortByDateDesc filtered else filtered
  { rowCount := sorted.length
    tableRows := sorted.take 200
    selectedRow :=
      if nid != "" then (sorted.filter (fun r => r.newsId == nid)).head?
      else none
    trendYears := (computeAnnualTrend ds).1
    trendScores := (computeAnnualTrend ds).2
    yearlySummary := computeYearlySummary ds req.year }

/-- The server's module-level state: the table loaded once at startup.
(`YEARS`, `SYMBOLS`, `MIN_SCORE`, `MAX_SCORE` are precomputed from it and
recomputed here where used.) -/
structure ServerState where
  ds : Dataset
deriving DecidableEq

/-- One request handled against the module state: the handler only reads
`DF` (through the defensive `DF.copy()` view), so the state comes back as
it went in. -/
def indexFlaskSt (st : ServerState) (req : RequestQ) : Response × ServerState :=
  (indexFlask st.ds req, st)

/-- Modelled from the spec: the filter pipeline with "no sentiment-range
predicate at all" — `filtChain1` minus its sentiment step (the code has no
way to switch that step off while the score column exists).  Comparison
point for the spec's claim that a range covering the global min/max
returns the same set as no range filter. -/
def filtChain1NoScore (ds : Dataset) (yearS symbolS keywordS : String) :
    List Record :=
  let f0 := ds.rows
  let f1 := yearStep ds.hasYear yearS f0
  let f2 :=
    if symbolS != "all" && ds.hasSymbol then
      f1.filter (fun r => r.stockSymbol == some symbolS)
    else f1
  if keywordS != "" && ds.hasTitle then
    f2.filter (fun r => titleMatch r.articleTitle keywordS)
  else f2

/-! ### Concrete fixtures (the spec's test scenario and edge-case tables) -/

/-- Scenario row 1: 2020 / AAA / positive 0.5 / "Good news". -/
def wRec1 : Record :=
  ⟨"1", some 1, some 2020, some "AAA", some "Good news", some "positive",
    some (mkRat 1 2)⟩

/-- Scenario row 2: 2020 / BBB / negative -0.3 / "Bad news". -/
def wRec2 : Record :=
  ⟨"2", some 2, some 2020, some "BBB", some "Bad news", some "negative",
    some (mkRat (-3) 10)⟩

/-- Scenario row 3: 2021 / AAA / positive 0.8 / "Great news". -/
def wRec3 : Record :=
  ⟨"3", some 3, some 2021, some "AAA", some "Great news", some "positive",
    some (mkRat 8 10)⟩

/-- The spec's three-row scenario table, all columns present. -/
def wDs : Dataset := ⟨[wRec1, wRec2, wRec3], true, true, true, true, true, true⟩

/-- A row with a present sentiment score of 0. -/
def cexRecA : Record :=
  ⟨"a", some 1, some 2020, some "AAA", some "t", some "positive", some 0⟩

/-- A row with a null (NaN) sentiment score. -/
def cexRecB : Record :=
  ⟨"b", some 2, some 2020, some "AAA", some "t", some "positive", none⟩

/-- A table with one scored and one score-less row, all columns present. -/
def cexDs : Dataset := ⟨[cexRecA, cexRecB], true, true, true, true, true, true⟩

/-- A table whose single row has a year but only a null score. -/
def nullScoreDs : Dataset := ⟨[cexRecB], true, true, true, true, true, true⟩

/-- A row titled `"abc"` — matched by the regex keyword `"a.c"` although
`"a.c"` is not a substring of the title. -/
def cexTitleRec : Record :=
  ⟨"t1", some 1, some 2020, some "AAA", some "abc", some "positive", none⟩

/-- A table holding only `cexTitleRec`; no score column, so the range step
is skipped and the keyword step decides membership. -/
def cexTitleDs : Dataset := ⟨[cexTitleRec], true, true, true, true, true, false⟩

/-! ### Helper lemmas -/

theorem qmin_le_left (a b : ℚ) : qmin a b ≤ a := by
  unfold qmin
  split
  · exact le_refl a
  · exact le_of_not_le (by assumption)

theorem qmin_le_right (a b : ℚ) : qmin a b ≤ b := by
  unfold qmin
  split
  · assumption
  · exact le_refl b

theorem qmax_left_le (a b : ℚ) : a ≤ qmax a b := by
  unfold qmax
  split
  · assumption
  · exact le_refl a

theorem qmax_right_le (a b : ℚ) : b ≤ qmax a b := by
  unfold qmax
  split
  · exact le_refl b
  · exact le_of_not_le (by assumption)

theorem listMinQ_eq_none_iff (l : List ℚ) : listMinQ l = none ↔ l = [] := by
  cases l with
  | nil => simp [listMinQ]
  | cons x xs =>
    simp only [listMinQ]
    cases listMinQ xs <;> simp

theorem listMinQ_le {l : List ℚ} {m : ℚ} (h : listMinQ l = some m) :
    ∀ x ∈ l, m ≤ x := by
  induction l generalizing m with
  | nil => simp [listMinQ] at h
  | cons a t ih =>
    intro x hx
    rw [listMinQ] at h
    cases ht : listMinQ t with
    | none =>
      rw [ht] at h
      cases h
      have hte : t = [] := (listMinQ_eq_none_iff t).mp ht
      subst hte
      rcases List.mem_singleton.mp hx with rfl
      exact le_refl x
    | some mt =>
      rw [ht] at h
      cases h
      rcases List.mem_cons.mp hx with rfl | hxt
      · exact qmin_le_left _ _
      · exact le_trans (qmin_le_right _ _) (ih ht x hxt)

theorem listMaxQ_eq_none_iff (l : List ℚ) : listMaxQ l = none ↔ l = [] := by
  cases l with
  | nil => simp [listMaxQ]
  | cons x xs =>
    simp only [listMaxQ]
    cases listMaxQ xs <;> simp

theorem listMaxQ_ge {l : List ℚ} {m : ℚ} (h : listMaxQ l = some m) :
    ∀ x ∈ l, x ≤ m := by
  induction l generalizing m with
  | nil => simp [listMaxQ] at h
  | cons a t ih =>
    intro x hx
    rw [listMaxQ] at h
    cases ht : listMaxQ t with
    | none =>
      rw [ht] at h
      cases h
      have hte : t = [] := (listMaxQ_eq_none_iff t).mp ht
      subst hte
      rcases List.mem_singleton.mp hx with rfl
      exact le_refl x
    | some mt =>
      rw [ht] at h
      cases h
      rcases List.mem_cons.mp hx with rfl | hxt
      · exact qmax_left_le _ _
      · exact le_trans (ih ht x hxt) (qmax_right_le _ _)

theorem pfLe_isSome_right {a b : Option ℚ} (h : pfLe a b = true) :
    b.isSome = true := by
  cases a <;> cases b <;> simp [pfLe] at h <;> rfl

theorem pfLe_some_some {a b : ℚ} : pfLe (some a) (some b) = true ↔ a ≤ b := by
  simp [pfLe]

theorem substrCI_upStr (t kw : String) :
    substrCI t (upStr kw) = substrCI t kw := by
  show containsL (upL t.data) (upL (upL kw.data)) = _
  rw [upL_upL]
  rfl

theorem isMetaChar_toNat {c : Char} (h : isMetaChar c = true) :
    c.toNat = 46 ∨ c.toNat = 94 ∨ c.toNat = 36 ∨ c.toNat = 42 ∨
    c.toNat = 43 ∨ c.toNat = 63 ∨ c.toNat = 123 ∨ c.toNat = 125 ∨
    c.toNat = 91 ∨ c.toNat = 93 ∨ c.toNat = 92 ∨ c.toNat = 124 ∨
    c.toNat = 40 ∨ c.toNat = 41 := by
  simp only [isMetaChar, Bool.or_eq_true, beq_iff_eq, or_assoc] at h
  rcases h with h | h | h | h | h | h | h | h | h | h | h | h | h | h <;>
    subst h <;> decide

theorem isMetaChar_toUpper {c : Char} (h : isMetaChar c = false) :
    isMetaChar c.toUpper = false := by
  by_cases hl : 97 ≤ c.toNat ∧ c.toNat ≤ 122
  · have hn : c.toUpper.toNat = c.toNat - 32 := char_toNat_toUpper_of_lower hl
    rw [Bool.eq_false_iff]
    intro hm
    rcases isMetaChar_toNat hm with
      h2 | h2 | h2 | h2 | h2 | h2 | h2 | h2 | h2 | h2 | h2 | h2 | h2 | h2 <;>
      omega
  · rw [char_toUpper_of_not_lower hl]
    exact h

theorem isLiteralPat_upStr {kw : String} (h : isLiteralPat kw = true) :
    isLiteralPat (upStr kw) = true := by
  rw [isLiteralPat] at h
  show (upL kw.data).all (fun c => !isMetaChar c) = true
  rw [upL, List.all_map]
  rw [List.all_eq_true] at h ⊢
  intro c hc
  have hh := h c hc
  have h1 : isMetaChar c = false := by
    revert hh
    cases isMetaChar c <;> simp
  show (!isMetaChar c.toUpper) = true
  rw [isMetaChar_toUpper h1]
  rfl

theorem parsePat_lit {l : List Char}
    (h : l.all (fun c => !isMetaChar c) = true) :
    parsePat l = some (l.map RTok.lit) := by
  induction l with
  | nil => rfl
  | cons c cs ih =>
    rw [List.all_cons] at h
    have h1 : isMetaChar c = false := by
      have hh := (Bool.and_eq_true_iff.mp h).1
      revert hh
      cases isMetaChar c <;> simp
    have h2 := (Bool.and_eq_true_iff.mp h).2
    have hdot : (c == '.') = false := by
      cases hc : c == '.'
      · rfl
      · exfalso
        have hce : c = '.' := beq_iff_eq.mp hc
        rw [hce] at h1
        exact absurd h1 (by decide)
    simp [parsePat, hdot, h1, ih h2]

theorem matchHere_lit (pl : List Char) : ∀ tl,
    matchHere (pl.map RTok.lit) tl = startsWithL (upL tl) (upL pl) := by
  induction pl with
  | nil =>
    intro tl
    cases tl <;> rfl
  | cons p ps ih =>
    intro tl
    cases tl with
    | nil => rfl
    | cons t ts => simp [matchHere, tokMatch, upL, startsWithL, ih ts]

theorem searchFrom_lit (pl : List Char) : ∀ tl,
    searchFrom (pl.map RTok.lit) tl = containsL (upL tl) (upL pl) := by
  intro tl
  induction tl with
  | nil => simp [searchFrom, containsL, matchHere_lit, upL]
  | cons t ts ih => simp [searchFrom, containsL, matchHere_lit, ih, upL]

theorem searchCI_eq_substr {t kw : String} (h : isLiteralPat kw = true) :
    searchCI t kw = substrCI t kw := by
  rw [isLiteralPat] at h
  simp only [searchCI, parsePat_lit h, searchFrom_lit]
  rfl

theorem titleMatch_lit_iff {kw : String} (h : isLiteralPat kw = true)
    (t : Option String) :
    titleMatch t kw = true ↔ ∃ s, t = some s ∧ substrCI s kw = true := by
  cases t with
  | none => simp [titleMatch]
  | some s => simp [titleMatch, searchCI_eq_substr h]

theorem titleMatch_upStr_lit {kw : String} (h : isLiteralPat kw = true)
    (t : Option String) :
    titleMatch t (upStr kw) = titleMatch t kw := by
  cases t with
  | none => rfl
  | some s =>
    show searchCI s (upStr kw) = searchCI s kw
    rw [searchCI_eq_substr (isLiteralPat_upStr h), searchCI_eq_substr h]
    exact substrCI_upStr s kw

theorem bne_empty_upStr (k : String) : (upStr k != "") = (k != "") := by
  by_cases hk : k = ""
  · subst hk
    rfl
  · have h2 : ¬(upStr k = "") := fun he => hk ((upStr_eq_empty_iff k).mp he)
    have ha : (upStr k != "") = true := bne_iff_ne.mpr h2
    have hb : (k != "") = true := bne_iff_ne.mpr hk
    rw [ha, hb]

theorem mem_of_ite_filter {α : Type} {c : Prop} [Decidable c]
    {p : α → Bool} {l : List α} {r : α}
    (h : r ∈ (if c then List.filter p l else l)) : r ∈ l := by
  split at h
  · exact (List.mem_filter.mp h).1
  · exact h

theorem pred_of_ite_filter {α : Type} {c : Prop} [Decidable c]
    {p : α → Bool} {l : List α} {r : α}
    (h : r ∈ (if c then List.filter p l else l)) (hc : c) : p r = true := by
  rw [if_pos hc] at h
  exact (List.mem_filter.mp h).2

theorem parseIntOpt_all : parseIntOpt "all" = none := by decide

theorem mem_of_yearStep {hy : Bool} {y : String} {l : List Record}
    {r : Record} (h : r ∈ yearStep hy y l) : r ∈ l := by
  unfold yearStep at h
  split at h
  · cases hp : parseIntOpt y with
    | some yy =>
      rw [hp] at h
      exact (List.mem_filter.mp h).1
    | none =>
      rw [hp] at h
      exact h
  · exact h

theorem mem_of_yearStep2 {hy : Bool} {y : String} {l : List Record}
    {r : Record} (h : r ∈ yearStep2 hy y l) : r ∈ l := by
  unfold yearStep2 at h
  split at h
  · split at h
    · cases hp : parseIntOpt y with
      | some yy =>
        rw [hp] at h
        exact (List.mem_filter.mp h).1
      | none =>
        rw [hp] at h
        exact h
    · exact h
  · exact h

theorem yearStep_parse_none {y : String} (hy : Bool) (l : List Record)
    (hp : parseIntOpt y = none) : yearStep hy y l = l := by
  unfold yearStep
  rw [hp]
  split <;> rfl

theorem yearStep_all (hy : Bool) (l : List Record) :
    yearStep hy "all" l = l := by
  simp [yearStep]

theorem yearStep2_parse_none {y : String} (hy : Bool) (l : List Record)
    (hp : parseIntOpt y = none) : yearStep2 hy y l = l := by
  unfold yearStep2
  rw [hp]
  split
  · split <;> rfl
  · rfl

theorem yearStep2_all (hy : Bool) (l : List Record) :
    yearStep2 hy "all" l = l := by
  simp [yearStep2]

theorem trimStr_empty : trimStr "" = "" := by decide

theorem filter_score_all_some (ds : Dataset) (h : ds.hasScore = true)
    (hall : ∀ r ∈ ds.rows, r.score.isSome = true)
    (l : List Record) (hsub : ∀ r ∈ l, r ∈ ds.rows) :
    List.filter
      (fun r => pfLe (minScoreGlobal ds) r.score &&
        pfLe r.score (maxScoreGlobal ds)) l = l := by
  apply List.filter_eq_self.mpr
  intro r hr
  have hrds := hsub r hr
  cases hq : r.score with
  | none =>
    have hs := hall r hrds
    rw [hq] at hs
    cases hs
  | some q =>
    have hqmem : q ∈ (ds.rows.map (·.score)).filterMap id := by
      rw [List.mem_filterMap]
      exact ⟨some q, List.mem_map.mpr ⟨r, hrds, hq⟩, rfl⟩
    have hminmax : ∀ m, listMinQ ((ds.rows.map (·.score)).filterMap id) = some m →
        m ≤ q := fun m hm => listMinQ_le hm q hqmem
    cases hmin : listMinQ ((ds.rows.map (·.score)).filterMap id) with
    | none =>
      rw [listMinQ_eq_none_iff] at hmin
      rw [hmin] at hqmem
      cases hqmem
    | some m =>
      cases hmax : listMaxQ ((ds.rows.map (·.score)).filterMap id) with
      | none =>
        rw [listMaxQ_eq_none_iff] at hmax
        rw [hmax] at hqmem
        cases hqmem
      | some mx =>
        have h1 : minScoreGlobal ds = some m := by
          rw [minScoreGlobal, if_pos h, seriesMin, hmin]
        have h2 : maxScoreGlobal ds = some mx := by
          rw [maxScoreGlobal, if_pos h, seriesMax, hmax]
        rw [h1, h2]
        have hle1 : m ≤ q := hminmax m hmin
        have hle2 : q ≤ mx := listMaxQ_ge hmax q hqmem
        simp [pfLe_some_some, hle1, hle2]

/-! ### The claims -/

/-- C3 counterexample: a year all of whose rows have null scores *does*
appear in the annual trend (with a NaN mean), refuting the claim that a
year with zero contributing rows does not appear. -/
theorem c3_counterexample :
    (∀ r ∈ nullScoreDs.rows, r.score = none) ∧
    computeAnnualTrend nullScoreDs = ([2020], [none]) := by
  refine ⟨?_, ?_⟩ <;> decide

/-- C3 (amended): over the entire table, the trend has exactly one entry
per distinct non-null year (strictly ascending, so every such year appears
once, including years with no non-null score), and the mean component is
the null-skipping per-year mean rounded to 4 places — NaN when the year
has zero contributing rows. -/
theorem c3_annual_trend_amended (ds : Dataset)
    (hy : ds.hasYear = true) (hs : ds.hasScore = true) :
    List.Sorted (· < ·) (computeAnnualTrend ds).1 ∧
    (∀ y : Int, y ∈ (computeAnnualTrend ds).1 ↔ some y ∈ ds.rows.map (·.year)) ∧
    (computeAnnualTrend ds).2 =
      (computeAnnualTrend ds).1.map
        (fun y => (yearMean ds.rows y).map (roundTo 4)) := by
  have hg : computeAnnualTrend ds =
      (distinctYears ds.rows,
        (distinctYears ds.rows).map
          (fun y => (yearMean ds.rows y).map (roundTo 4))) := by
    simp [computeAnnualTrend, hy, hs]
  rw [hg]
  refine ⟨?_, ?_, rfl⟩
  · have hsorted : List.Sorted (fun a b : Int => a ≤ b) (distinctYears ds.rows) :=
      List.sorted_insertionSort _ _
    have hnodup : (distinctYears ds.rows).Nodup :=
      (List.perm_insertionSort _ _).nodup_iff.mpr
        (List.nodup_dedup (ds.rows.filterMap (·.year)))
    exact List.Sorted.lt_of_le hsorted hnodup
  · intro y
    simp only [distinctYears, List.mem_insertionSort, List.mem_dedup,
      List.mem_filterMap, List.mem_map]

/-- C3 witness: on the scenario table the trend is strictly ascending by
year, 2020 appears exactly because some row has year 2020, and the means
are the rounded per-year null-skipping averages. -/
theorem c3_witness :
    List.Sorted (· < ·) (computeAnnualTrend wDs).1 ∧
    (2020 ∈ (computeAnnualTrend wDs).1 ↔
      some 2020 ∈ wDs.rows.map (·.year)) ∧
    (computeAnnualTrend wDs).2 =
      (computeAnnualTrend wDs).1.map
        (fun y => (yearMean wDs.rows y).map (roundTo 4)) :=
  ⟨(c3_annual_trend_amended wDs rfl rfl).1,
    (c3_annual_trend_amended wDs rfl rfl).2.1 2020,
    (c3_annual_trend_amended wDs rfl rfl).2.2⟩

/-- C4: the yearly sentiment summary depends only on the Dataset and the
year parameter — two requests that agree on `year` but differ in symbol,
sentiment range, keyword, or record id yield identical yearly summaries,
because the handler computes it from the full table restricted by the
year predicate alone. -/
theorem c4_summary_depends_only_on_year (ds : Dataset) (r1 r2 : RequestQ)
    (h : r1.year = r2.year) :
    (indexFlask ds r1).yearlySummary = (indexFlask ds r2).yearlySummary := by
  simp only [indexFlask, h]

/-- C4 witness: two concrete requests for year 2020 differing in symbol,
keyword and bounds produce the same yearly summary. -/
theorem c4_witness :
    (indexFlask wDs
        { year := "2020", symbol := "AAA", keyword := "good",
          newsId := "", sentMin := some 0, sentMax := some 1 }).yearlySummary =
      (indexFlask wDs
        { year := "2020", symbol := "all", keyword := "",
          newsId := "7", sentMin := none, sentMax := none }).yearlySummary :=
  c4_summary_depends_only_on_year wDs _ _ rfl

/-- C6: a year value that is set, not the `"all"` sentinel, and fails
integer parsing makes both pipelines silently skip the year predicate:
the chain returns exactly what it returns with the year unset, and no
error is raised (the model is total). -/
theorem c6_unparseable_year_skipped (ds : Dataset) (y s k nid : String)
    (mn mx : Option ℚ) (hp : parseIntOpt y = none) :
    filtChain1 ds y s k mn mx = filtChain1 ds "all" s k mn mx ∧
    filtChain2 ds y s k nid mn mx = filtChain2 ds "all" s k nid mn mx := by
  constructor
  · simp only [filtChain1, yearStep_parse_none _ _ hp, yearStep_all]
  · simp only [filtChain2, yearStep2_parse_none _ _ hp, yearStep2_all]

/-- C6 witness: filtering the scenario table by the unparseable year
`"banana"` returns exactly the unfiltered chains. -/
theorem c6_witness :
    filtChain1 wDs "banana" "all" "" none none =
        filtChain1 wDs "all" "all" "" none none ∧
      filtChain2 wDs "banana" "all" "" "" none none =
        filtChain2 wDs "all" "all" "" "" none none :=
  c6_unparseable_year_skipped wDs "banana" "all" "" "" none none (by decide)

/-- C7: a selected year that parses but matches zero rows, or a table
without the sentiment-label column, makes `compute_yearly_summary` return
the explicit empty summary (total 0, no dominant label, empty breakdown)
instead of failing. -/
theorem c7_empty_year_summary (ds : Dataset) (y : String) (n : Int)
    (h : ds.hasLabel = false ∨
      (ds.hasYear = true ∧ parseIntOpt y = some n ∧
        ∀ r ∈ ds.rows, r.year ≠ some n)) :
    computeYearlySummary ds y = emptySummary := by
  rcases h with hl | ⟨hy, hp, hno⟩
  · simp [computeYearlySummary, hl]
  · have hne : y ≠ "all" := by
      intro he
      rw [he, parseIntOpt_all] at hp
      cases hp
    have hfil : ds.rows.filter (fun r => r.year == some n) = [] := by
      rw [List.filter_eq_nil_iff]
      intro r hr
      simp only [beq_iff_eq]
      exact hno r hr
    simp [computeYearlySummary, hy, bne_iff_ne.mpr hne, hp, hfil]

/-- C7 witness: asking the scenario table for year 1999 (which matches no
row) yields the empty summary. -/
theorem c7_witness : computeYearlySummary wDs "1999" = emptySummary :=
  c7_empty_year_summary wDs "1999" 1999
    (Or.inr ⟨rfl, by decide, by decide⟩)

/-- C9: handling a request never mutates the base Dataset: the module
state after the handler runs is the state it started from, record for
record. -/
theorem c9_no_mutation (st : ServerState) (req : RequestQ) :
    (indexFlaskSt st req).2 = st ∧
      (indexFlaskSt st req).2.ds.rows = st.ds.rows :=
  ⟨rfl, rfl⟩

/-- C10: when the score column exists, the sentiment-range step is always
applied (with the global min/max as defaults), and a null score satisfies
no bound — so every row either pipeline returns has a non-null score, for
every filter specification. -/
theorem c10_returned_scores_non_null (ds : Dataset) (y s k nid : String)
    (mn mx : Option ℚ) (h : ds.hasScore = true) :
    (∀ r ∈ filtChain1 ds y s k mn mx, r.score.isSome = true) ∧
    (∀ r ∈ filtChain2 ds y s k nid mn mx, r.score.isSome = true) := by
  constructor
  · intro r hr
    simp only [filtChain1] at hr
    have hr3 := mem_of_ite_filter hr
    have hsc := pred_of_ite_filter hr3 h
    have h1 : pfLe mn r.score = true := (Bool.and_eq_true_iff.mp hsc).1
    exact pfLe_isSome_right h1
  · intro r hr
    simp only [filtChain2] at hr
    have hr4 := mem_of_ite_filter hr
    have hr3 := mem_of_ite_filter hr4
    have hsc := pred_of_ite_filter hr3 h
    have h1 : pfLe mn r.score = true := (Bool.and_eq_true_iff.mp hsc).1
    exact pfLe_isSome_right h1

/-- C10 witness: the scored row of the two-row table passes the default
all-unset pipeline and indeed carries a non-null score. -/
theorem c10_witness : cexRecA.score.isSome = true :=
  (c10_returned_scores_non_null cexDs "all" "all" "" ""
      (minScoreGlobal cexDs) (maxScoreGlobal cexDs) (by decide)).1
    cexRecA (by decide)

/-- C5: for a requested symbol other than the sentinels, every row the
`app1.py` pipeline returns has a normalized (trimmed, upper-cased) symbol
equal to the normalized requested value — the chain normalizes the request
and compares exactly against the load-normalized column. -/
theorem c5_symbol_exact_match (ds : Dataset) (y s k nid : String)
    (mn mx : Option ℚ) (hs1 : s ≠ "") (hs2 : s ≠ "all") :
    (∀ r ∈ filtChain2 ds y s k nid mn mx,
      ∃ sym, r.stockSymbol = some sym ∧ normSym sym = normSym s) ∧
    (ds.hasSymbol = true → ∀ r ∈ filtChain1 ds y s k mn mx,
      ∃ sym, r.stockSymbol = some sym ∧ normSym sym = normSym s) := by
  constructor
  · intro r hr
    simp only [filtChain2] at hr
    have hr4 := mem_of_ite_filter hr
    have hr3 := mem_of_ite_filter hr4
    have hr2 := mem_of_ite_filter hr3
    have hcond : (s != "" && s != "all") = true := by
      simp [bne_iff_ne.mpr hs1, bne_iff_ne.mpr hs2]
    have hpred := pred_of_ite_filter hr2 hcond
    have heq : r.stockSymbol = some (normSym s) := beq_iff_eq.mp hpred
    exact ⟨normSym s, heq, normSym_normSym s⟩
  · intro hsym r hr
    simp only [filtChain1] at hr
    have hr3 := mem_of_ite_filter hr
    have hr2 := mem_of_ite_filter hr3
    have hcond : (s != "all" && ds.hasSymbol) = true := by
      simp [bne_iff_ne.mpr hs2, hsym]
    have hpred := pred_of_ite_filter hr2 hcond
    have heq : r.stockSymbol = some s := beq_iff_eq.mp hpred
    exact ⟨s, heq, rfl⟩

/-- C5 witness: filtering the scenario table by the raw symbol
`" aaa"` returns row 3 in the normalizing pipeline, whose normalized
symbol `"AAA"` equals the normalized request; the exact-match pipeline
returns row 3 for the already-normalized request `"AAA"`. -/
theorem c5_witness :
    (∃ sym, wRec3.stockSymbol = some sym ∧ normSym sym = normSym " aaa") ∧
    (∃ sym, wRec3.stockSymbol = some sym ∧ normSym sym = normSym "AAA") :=
  ⟨(c5_symbol_exact_match wDs "all" " aaa" "" ""
      (minScoreGlobal wDs) (maxScoreGlobal wDs) (by decide) (by decide)).1
      wRec3 (by decide),
    (c5_symbol_exact_match wDs "all" "AAA" "" ""
      (minScoreGlobal wDs) (maxScoreGlobal wDs) (by decide) (by decide)).2
      (by decide) wRec3 (by decide)⟩

/-- C8 counterexample: `str.contains` defaults to `regex=True`, so the
keyword is a regular-expression pattern — the keyword `"a.c"` retains the
row titled `"abc"` although `"a.c"` is not a (case-insensitive) substring
of `"abc"`, refuting the claimed substring characterization as stated. -/
theorem c8_counterexample :
    cexTitleRec ∈ filtChain2 cexTitleDs "all" "all" "a.c" "" none none ∧
    cexTitleRec.articleTitle = some "abc" ∧
    substrCI "abc" "a.c" = false := by
  refine ⟨?_, rfl, ?_⟩ <;> decide

/-- C8 (amended): for keywords free of regex metacharacters the keyword
predicate retains a row iff the title is present and contains the keyword
as a case-insensitive substring, and filtering by the keyword and by its
upper-cased form yield identical result sets; rows with null titles are
never returned by *any* non-empty keyword filter (`na=False`). -/
theorem c8_keyword_literal_amended (ds : Dataset) (y s k nid : String)
    (mn mx : Option ℚ) (hlit : isLiteralPat k = true) :
    ((k ≠ "") →
      ∀ r, r ∈ filtChain2 ds y s k nid mn mx ↔
        (r ∈ filtChain2 ds y s "" nid mn mx ∧
          ∃ t, r.articleTitle = some t ∧ substrCI t k = true)) ∧
    filtChain2 ds y s (upStr k) nid mn mx = filtChain2 ds y s k nid mn mx ∧
    (∀ kw : String, kw ≠ "" →
      ∀ r ∈ filtChain2 ds y s kw nid mn mx, r.articleTitle.isSome = true) := by
  refine ⟨?_, ?_, ?_⟩
  · intro hk r
    have hkb : (k != "") = true := bne_iff_ne.mpr hk
    simp only [filtChain2, hkb, bne_self_eq_false, if_true, if_false]
    by_cases hn : (nid != "") = true
    · rw [if_pos hn, if_pos hn]
      simp only [List.mem_filter, titleMatch_lit_iff hlit]
      tauto
    · rw [if_neg hn, if_neg hn]
      simp only [List.mem_filter, titleMatch_lit_iff hlit]
      tauto
  · have hf : (fun r : Record => titleMatch r.articleTitle (upStr k)) =
        fun r : Record => titleMatch r.articleTitle k :=
      funext fun r => titleMatch_upStr_lit hlit r.articleTitle
    simp only [filtChain2, bne_empty_upStr, hf]
  · intro kw hkw r hr
    simp only [filtChain2] at hr
    have hr4 := mem_of_ite_filter hr
    have hkwb : (kw != "") = true := bne_iff_ne.mpr hkw
    have hpred := pred_of_ite_filter hr4 hkwb
    cases ht : r.articleTitle with
    | none =>
      rw [ht] at hpred
      exact absurd hpred (by simp [titleMatch])
    | some s2 => rfl

/-- C1 counterexample: with all filter dimensions unset, the pipeline does
*not* return the full Dataset when a row's sentiment score is null — the
always-applied default range filter drops it (here: two rows in, one row
out), refuting the claim as stated. -/
theorem c1_counterexample :
    cexDs.hasDate = true ∧
    cexDs.rows.length = 2 ∧
    (indexFlask cexDs {}).rowCount = 1 ∧
    (indexFlask cexDs {}).tableRows ≠ (sortByDateDesc cexDs.rows).take 200 := by
  refine ⟨rfl, rfl, ?_, ?_⟩ <;> decide

/-- C1 (amended): with every filter dimension unset, on a dataset with a
parsed date column whose rows all carry non-null scores whenever the score
column exists, the pipeline returns the full Dataset sorted by date
descending (a permutation of the rows, NaT last), truncated to the first
200 rows, and reports the untruncated count. -/
theorem c1_all_unset_amended (ds : Dataset) (hd : ds.hasDate = true)
    (hall : ds.hasScore = true → ∀ r ∈ ds.rows, r.score.isSome = true) :
    (indexFlask ds {}).tableRows = (sortByDateDesc ds.rows).take 200 ∧
    (indexFlask ds {}).rowCount = ds.rows.length ∧
    List.Perm (sortByDateDesc ds.rows) ds.rows ∧
    List.Sorted dateDescRel (sortByDateDesc ds.rows) := by
  have hchain : filtChain1 ds "all" "all" ""
      (effSentMin ds {}) (effSentMax ds {}) = ds.rows := by
    have hmin : effSentMin ds {} = minScoreGlobal ds := rfl
    have hmax : effSentMax ds {} = maxScoreGlobal ds := rfl
    rw [hmin, hmax]
    by_cases h : ds.hasScore = true
    · simp only [filtChain1, yearStep_all, bne_self_eq_false, Bool.false_and,
        Bool.false_eq_true, if_false, if_pos h]
      exact filter_score_all_some ds h (hall h) ds.rows (fun r hr => hr)
    · simp only [filtChain1, yearStep_all, bne_self_eq_false, Bool.false_and,
        Bool.false_eq_true, if_false, if_neg h]
  have hidx : indexFlask ds {} =
      { rowCount := (sortByDateDesc ds.rows).length
        tableRows := (sortByDateDesc ds.rows).take 200
        selectedRow := none
        trendYears := (computeAnnualTrend ds).1
        trendScores := (computeAnnualTrend ds).2
        yearlySummary := computeYearlySummary ds "all" } := by
    simp only [indexFlask, trimStr_empty, hchain, hd, if_true, ite_self]
    simp
  refine ⟨?_, ?_, List.perm_insertionSort _ _, List.sorted_insertionSort _ _⟩
  · rw [hidx]
  · rw [hidx]
    exact (List.perm_insertionSort _ _).length_eq

/-- C1 witness: on the three-row scenario table (all dates parsed, all
scores present) the all-unset pipeline returns all rows newest first. -/
theorem c1_witness :
    (indexFlask wDs {}).tableRows = (sortByDateDesc wDs.rows).take 200 ∧
    (indexFlask wDs {}).rowCount = wDs.rows.length ∧
    List.Perm (sortByDateDesc wDs.rows) wDs.rows ∧
    List.Sorted dateDescRel (sortByDateDesc wDs.rows) :=
  c1_all_unset_amended wDs rfl (by decide)

/-- C2 counterexample: on a table with one scored and one null-score row,
the range [global min, global max] does *not* return the same set as no
range predicate — the null-score row is dropped by the range filter but
kept without it.  This refutes the claim as stated. -/
theorem c2_counterexample :
    filtChain1 cexDs "all" "all" ""
        (minScoreGlobal cexDs) (maxScoreGlobal cexDs) ≠
      filtChain1NoScore cexDs "all" "all" "" := by decide

/-- C2 (amended): on a dataset with a score column, every row returned
under range [lo, hi] has a non-null score inside the bounds; and the range
[global min, global max] returns the same set as no range predicate
*provided every row's score is non-null*. -/
theorem c2_sentiment_range_amended (ds : Dataset) (y s k : String) :
    (ds.hasScore = true →
      ∀ lo hi : ℚ, ∀ r ∈ filtChain1 ds y s k (some lo) (some hi),
        ∃ q, r.score = some q ∧ lo ≤ q ∧ q ≤ hi) ∧
    ((∀ r ∈ ds.rows, r.score.isSome = true) →
      filtChain1 ds y s k (minScoreGlobal ds) (maxScoreGlobal ds) =
        filtChain1NoScore ds y s k) := by
  constructor
  · intro h lo hi r hr
    simp only [filtChain1] at hr
    have hr3 := mem_of_ite_filter hr
    have hsc := pred_of_ite_filter hr3 h
    have h1 := (Bool.and_eq_true_iff.mp hsc).1
    have h2 := (Bool.and_eq_true_iff.mp hsc).2
    cases hq : r.score with
    | none =>
      rw [hq] at h1
      simp [pfLe] at h1
    | some q =>
      rw [hq] at h1 h2
      exact ⟨q, rfl, pfLe_some_some.mp h1, pfLe_some_some.mp h2⟩
  · intro hall
    by_cases h : ds.hasScore = true
    · simp only [filtChain1, filtChain1NoScore, if_pos h]
      rw [filter_score_all_some ds h hall _ ?hsub]
      case hsub =>
        intro r hr
        exact mem_of_yearStep (mem_of_ite_filter hr)
    · simp only [filtChain1, filtChain1NoScore, if_neg h]

/-- C2 witness: the scored row satisfies the concrete bounds [0, 0], and
on the all-non-null scenario table the global-range chain equals the
no-range chain. -/
theorem c2_witness :
    (∃ q, cexRecA.score = some q ∧ 0 ≤ q ∧ q ≤ 0) ∧
    filtChain1 wDs "all" "all" ""
        (minScoreGlobal wDs) (maxScoreGlobal wDs) =
      filtChain1NoScore wDs "all" "all" "" :=
  ⟨(c2_sentiment_range_amended cexDs "all" "all" "").1 (by decide) 0 0
      cexRecA (by decide),
    (c2_sentiment_range_amended wDs "all" "all" "").2 (by decide)⟩

/-- C8 witness: on the scenario table with the literal keyword `"GOOD"`,
row 1 is retained iff it is in the keyword-free chain with a title
containing `"GOOD"` case-insensitively; filtering by `"good"` upper-cased
equals filtering by `"good"`; and the retained row's title is present. -/
theorem c8_witness :
    (wRec1 ∈ filtChain2 wDs "all" "all" "GOOD" ""
        (minScoreGlobal wDs) (maxScoreGlobal wDs) ↔
      (wRec1 ∈ filtChain2 wDs "all" "all" "" ""
          (minScoreGlobal wDs) (maxScoreGlobal wDs) ∧
        ∃ t, wRec1.articleTitle = some t ∧ substrCI t "GOOD" = true)) ∧
    filtChain2 wDs "all" "all" (upStr "good") ""
        (minScoreGlobal wDs) (maxScoreGlobal wDs) =
      filtChain2 wDs "all" "all" "good" ""
        (minScoreGlobal wDs) (maxScoreGlobal wDs) ∧
    wRec1.articleTitle.isSome = true :=
  ⟨(c8_keyword_literal_amended wDs "all" "all" "GOOD" ""
        (minScoreGlobal wDs) (maxScoreGlobal wDs) (by decide)).1
      (by decide) wRec1,
    (c8_keyword_literal_amended wDs "all" "all" "good" ""
        (minScoreGlobal wDs) (maxScoreGlobal wDs) (by decide)).2.1,
    (c8_keyword_literal_amended wDs "all" "all" "GOOD" ""
        (minScoreGlobal wDs) (maxScoreGlobal wDs) (by decide)).2.2
      "GOOD" (by decide) wRec1 (by decide)⟩

end NewsPipeline
